import Mathlib

/-!
Verification of the cluster-descriptor builder and argument parsing of
`mnist.py` (dte/multinode-mnist).

The embedding models, faithfully to the Python source:
  * Python single-character `str.split` (`pySplit`),
  * Python list indexing with negative-index normalisation and IndexError
    (`pyIndex`, `pyGet`, `pySet`),
  * Python `int()` on plain optionally-signed decimal strings (`pyInt`),
  * the hidden-units list comprehension of `parse_args`
    (`parse_hidden_units`),
  * `make_tf_config`, including the aliasing of the returned cluster's
    `worker` and `ps` lists with `opts.worker_hosts` / `opts.ps_hosts`
    (so the in-place localhost rewrite is visible in the post-call `Opts`),
    the warnings it logs, and the exceptions it can raise
    (`TfResult.error`).
-/

/-- Split a list of characters at every occurrence of `sep`, keeping empty
groups, exactly like Python `str.split(sep)` for a one-character separator. -/
def splitChar (sep : Char) : List Char → List (List Char)
  | [] => [[]]
  | c :: cs =>
    match splitChar sep cs with
    | [] => [[c]]
    | g :: gs => if c = sep then [] :: g :: gs else (c :: g) :: gs

/-- Python `s.split(sep)` for a single-character separator `sep`. -/
def pySplit (s : String) (sep : Char) : List String :=
  (splitChar sep s.toList).map (fun cs => String.mk cs)

/-- Normalise a Python list index for a list of length `n`: a negative index
counts from the end; the result is the actual position, or `none` when the
access would raise `IndexError`. -/
def pyIndex (n : Nat) (i : Int) : Option Nat :=
  let j : Int := if i < 0 then (n : Int) + i else i
  if 0 ≤ j ∧ j < (n : Int) then some j.toNat else none

/-- Python `l[i]` on a list: `none` models a raised `IndexError`. -/
def pyGet (l : List String) (i : Int) : Option String :=
  match pyIndex l.length i with
  | some j => l.get? j
  | none => none

/-- Python `l[i] = v` on a list; on an out-of-range index (which `mnist.py`
never reaches, because the same index was just read) the list is returned
unchanged. -/
def pySet (l : List String) (i : Int) (v : String) : List String :=
  match pyIndex l.length i with
  | some j => l.set j v
  | none => l

/-- Value of a decimal digit character, `none` on a non-digit. -/
def digitVal (c : Char) : Option Nat :=
  if '0' ≤ c ∧ c ≤ '9' then some (c.toNat - 48) else none

/-- Read a non-empty run of decimal digits left to right, accumulating the
value; `none` when a non-digit appears. -/
def readDigits : List Char → Nat → Option Nat
  | [], acc => some acc
  | c :: cs, acc =>
    match digitVal c with
    | some d => readDigits cs (10 * acc + d)
    | none => none

/-- Python `int(s)` on a plain optionally-signed decimal string (the only
shape `mnist.py` feeds it): `none` models a raised `ValueError`. -/
def pyInt (s : String) : Option Int :=
  match s.toList with
  | [] => none
  | c :: rest =>
    if c = '-' then
      match rest with
      | [] => none
      | _ => (readDigits rest 0).map (fun n => -(n : Int))
    else if c = '+' then
      match rest with
      | [] => none
      | _ => (readDigits rest 0).map (fun n => (n : Int))
    else (readDigits (c :: rest) 0).map (fun n => (n : Int))

/-- The hidden-units line of `parse_args`:
`opts.hidden_units = [int(n) for n in opts.hidden_units.split(',')]`. -/
def parse_hidden_units (s : String) : Option (List Int) :=
  (pySplit s ',').mapM pyInt

/-- The fields of the parsed-argument object that `make_tf_config` reads or
writes. `job_name` is `none` for Python `None`; `ps_hosts` and
`worker_hosts` are the already-split host lists; `task_index` is a Python
`int`. -/
structure Opts where
  job_name : Option String
  task_index : Int
  ps_hosts : List String
  worker_hosts : List String
deriving Repr, DecidableEq

/-- The `task` sub-dictionary of a populated TF_CONFIG descriptor. -/
structure TfTask where
  type : String
  index : Int
deriving Repr, DecidableEq

/-- The `cluster` sub-dictionary of a populated TF_CONFIG descriptor. -/
structure TfCluster where
  master : List String
  worker : List String
  ps : List String
deriving Repr, DecidableEq

/-- A populated TF_CONFIG descriptor as built by `make_tf_config`. -/
structure TfConfig where
  task : TfTask
  cluster : TfCluster
  environment : String
deriving Repr, DecidableEq

/-- Outcome of a call to `make_tf_config`: the empty descriptor `\x7b\x7d`, a
populated descriptor, or a raised exception (`IndexError` from list
indexing or from `split(':')[1]`, `KeyError` from the cluster-dictionary
lookup). -/
inductive TfResult where
  | empty : TfResult
  | config : TfConfig → TfResult
  | error : String → TfResult
deriving Repr, DecidableEq

/-- Full effect of a call to `make_tf_config`: its return value or raised
exception, the warnings logged via `tf.logging.warn` in order, and the
post-call argument object (the cluster's `worker` and `ps` lists alias
`opts.worker_hosts` and `opts.ps_hosts`, so the in-place rewrite at
`tf_config['cluster'][opts.job_name][opts.task_index]` can mutate `opts`). -/
structure CallResult where
  ret : TfResult
  warnings : List String
  opts : Opts
deriving Repr, DecidableEq

/-- The warnings logged on the incomplete-triple path of `make_tf_config`,
with each `format` placeholder already substituted: on that path a missing
`job_name` is `None` and a missing host list is `[]`. -/
def incompleteWarnings (opts : Opts) : List String :=
  ["Distributed setting is incomplete. You must pass job_name, ps_hosts, and worker_hosts."]
  ++ (if opts.job_name = none then
        ["Expected job_name of worker or ps. Received None."] else [])
  ++ (if opts.ps_hosts = [] then
        ["Expected ps_hosts, list of hostname:port pairs. Got []. Example: --ps_hosts \"localhost:2224\" or --ps_hosts \"localhost:2224,localhost:2225"] else [])
  ++ (if opts.worker_hosts = [] then
        ["Expected worker_hosts, list of hostname:port pairs. Got []. Example: --worker_hosts \"localhost:2222,localhost:2223\""] else [])
  ++ ["Ignoring distributed arguments. Running single mode."]

/-- Lookup `tf_config['cluster'][jn]`: the dictionary has exactly the keys
`master`, `worker`, `ps`; any other key models a raised `KeyError`. -/
def clusterLookup (jn : String) (master worker ps : List String) :
    Option (List String) :=
  if jn = "master" then some master
  else if jn = "worker" then some worker
  else if jn = "ps" then some ps
  else none

/-- The complete-triple tail of `make_tf_config` (source lines 116-135),
entered with `opts.job_name = some jn`. `master` starts as the fresh
one-element list `[opts.worker_hosts[0]]`, while `worker` and `ps` are the
very lists held by `opts`; the assignment through `rl2` therefore lands in
the post-call `opts` exactly when `jn` is `worker` or `ps`. -/
def makeComplete (opts : Opts) (jn : String) : CallResult :=
  match pyGet opts.worker_hosts 0 with
  | none => ⟨TfResult.error "IndexError", [], opts⟩
  | some w0 =>
    match clusterLookup jn [w0] opts.worker_hosts opts.ps_hosts with
    | none => ⟨TfResult.error "KeyError", [], opts⟩
    | some rl =>
      match pyGet rl opts.task_index with
      | none => ⟨TfResult.error "IndexError", [], opts⟩
      | some entry =>
        match (pySplit entry ':').get? 1 with
        | none => ⟨TfResult.error "IndexError", [], opts⟩
        | some port =>
          let localIp := "localhost:" ++ port
          let rl2 := pySet rl opts.task_index localIp
          let master1 := if jn = "master" then rl2 else [w0]
          let worker1 := if jn = "worker" then rl2 else opts.worker_hosts
          let ps1 := if jn = "ps" then rl2 else opts.ps_hosts
          let chief := jn = "worker" ∧ opts.task_index = 0
          ⟨TfResult.config
             ⟨⟨if chief then "master" else jn, opts.task_index⟩,
              ⟨if chief then master1.set 0 localIp else master1, worker1, ps1⟩,
              "cloud"⟩,
           [],
           { opts with worker_hosts := worker1, ps_hosts := ps1 }⟩

/-- `make_tf_config` of `mnist.py` (source lines 99-135). -/
def make_tf_config (opts : Opts) : CallResult :=
  if opts.job_name = none ∧ opts.ps_hosts = [] ∧ opts.worker_hosts = [] then
    ⟨TfResult.empty, [], opts⟩
  else if opts.job_name = none ∨ opts.ps_hosts = [] ∨ opts.worker_hosts = [] then
    ⟨TfResult.empty, incompleteWarnings opts, opts⟩
  else
    match opts.job_name with
    | none => ⟨TfResult.error "unreachable", [], opts⟩
    | some jn => makeComplete opts jn

/-- None of `job_name`, `ps_hosts`, `worker_hosts` is set. -/
def triple_empty (o : Opts) : Prop :=
  o.job_name = none ∧ o.ps_hosts = [] ∧ o.worker_hosts = []

/-- All of `job_name`, `ps_hosts`, `worker_hosts` are set. -/
def triple_complete (o : Opts) : Prop :=
  o.job_name ≠ none ∧ o.ps_hosts ≠ [] ∧ o.worker_hosts ≠ []

instance (o : Opts) : Decidable (triple_empty o) := by
  unfold triple_empty; infer_instance

instance (o : Opts) : Decidable (triple_complete o) := by
  unfold triple_complete; infer_instance

/-- The call raised no exception. -/
def noError (r : CallResult) : Prop := ∀ m, r.ret ≠ TfResult.error m

/-- `new` is `orig` with exactly the entry at Python index `i` replaced by
`localhost:` followed by the port (first-colon-to-second-colon part) of the
original entry there. -/
def localhostRewriteAt (orig new : List String) (i : Int) : Prop :=
  ∃ j, pyIndex orig.length i = some j ∧
    ∃ e, orig.get? j = some e ∧
      ∃ p, (pySplit e ':').get? 1 = some p ∧
        new = orig.set j ("localhost:" ++ p)

theorem pyGet_eq_some (l : List String) (i : Int) (e : String)
    (h : pyGet l i = some e) :
    ∃ j, pyIndex l.length i = some j ∧ l.get? j = some e := by
  unfold pyGet at h
  cases hj : pyIndex l.length i with
  | none => rw [hj] at h; exact absurd h (by simp)
  | some j => rw [hj] at h; exact ⟨j, rfl, h⟩

theorem pyGet_of_parts (l : List String) (i : Int) (j : Nat) (e : String)
    (hj : pyIndex l.length i = some j) (he : l.get? j = some e) :
    pyGet l i = some e := by
  unfold pyGet
  rw [hj]
  exact he

theorem pySet_eq (l : List String) (i : Int) (j : Nat) (v : String)
    (h : pyIndex l.length i = some j) : pySet l i v = l.set j v := by
  unfold pySet
  rw [h]

theorem pySet_length (l : List String) (i : Int) (v : String) :
    (pySet l i v).length = l.length := by
  unfold pySet
  cases pyIndex l.length i <;> simp

theorem pyIndex_zero (n : Nat) (h : 0 < n) : pyIndex n 0 = some 0 := by
  unfold pyIndex
  simp
  omega

theorem pyIndex_some_lt (n : Nat) (i : Int) (j : Nat)
    (h : pyIndex n i = some j) : j < n := by
  simp only [pyIndex] at h
  by_cases hneg : i < 0
  · rw [if_pos hneg] at h
    by_cases hc : 0 ≤ (n : Int) + i ∧ (n : Int) + i < (n : Int)
    · rw [if_pos hc] at h
      injection h with h'
      omega
    · rw [if_neg hc] at h
      exact absurd h (by simp)
  · rw [if_neg hneg] at h
    by_cases hc : 0 ≤ i ∧ i < (n : Int)
    · rw [if_pos hc] at h
      injection h with h'
      omega
    · rw [if_neg hc] at h
      exact absurd h (by simp)

theorem pyGet_zero_of_ne_nil (l : List String) (h : l ≠ []) :
    ∃ w0, pyGet l 0 = some w0 ∧ l.take 1 = [w0] ∧ l.get? 0 = some w0 := by
  cases l with
  | nil => exact absurd rfl h
  | cons a t =>
    refine ⟨a, ?_, by simp, rfl⟩
    unfold pyGet
    rw [pyIndex_zero _ (by simp)]
    rfl

theorem make_tf_config_complete (opts : Opts) (jn : String)
    (h : opts.job_name = some jn) (hps : opts.ps_hosts ≠ [])
    (hw : opts.worker_hosts ≠ []) :
    make_tf_config opts = makeComplete opts jn := by
  simp [make_tf_config, h, hps, hw]

theorem make_tf_config_not_complete (opts : Opts) (h : ¬ triple_complete opts) :
    (make_tf_config opts).ret = TfResult.empty ∧ (make_tf_config opts).opts = opts := by
  unfold make_tf_config
  by_cases h1 : opts.job_name = none ∧ opts.ps_hosts = [] ∧ opts.worker_hosts = []
  · rw [if_pos h1]
    exact ⟨rfl, rfl⟩
  · rw [if_neg h1, if_pos ?hc]
    case hc => unfold triple_complete at h; tauto
    exact ⟨rfl, rfl⟩

theorem clusterLookup_worker (m w p : List String) :
    clusterLookup "worker" m w p = some w := by
  unfold clusterLookup
  rw [if_neg (by decide), if_pos rfl]

theorem clusterLookup_ps (m w p : List String) :
    clusterLookup "ps" m w p = some p := by
  unfold clusterLookup
  rw [if_neg (by decide), if_neg (by decide), if_pos rfl]

/-- The value of the success path of `makeComplete`, with the Python list
assignment already resolved to position `j` and the port to `port`. -/
def completeResult (opts : Opts) (jn w0 port : String) (rl : List String) (j : Nat) :
    CallResult :=
  let localIp := "localhost:" ++ port
  let rl2 := rl.set j localIp
  let master1 := if jn = "master" then rl2 else [w0]
  let worker1 := if jn = "worker" then rl2 else opts.worker_hosts
  let ps1 := if jn = "ps" then rl2 else opts.ps_hosts
  let chief := jn = "worker" ∧ opts.task_index = 0
  ⟨TfResult.config
     ⟨⟨if chief then "master" else jn, opts.task_index⟩,
      ⟨if chief then master1.set 0 localIp else master1, worker1, ps1⟩,
      "cloud"⟩,
   [],
   { opts with worker_hosts := worker1, ps_hosts := ps1 }⟩

theorem makeComplete_eq (opts : Opts) (jn w0 entry port : String)
    (rl : List String) (j : Nat)
    (hw0 : pyGet opts.worker_hosts 0 = some w0)
    (hrl : clusterLookup jn [w0] opts.worker_hosts opts.ps_hosts = some rl)
    (hj : pyIndex rl.length opts.task_index = some j)
    (he : rl.get? j = some entry)
    (hport : (pySplit entry ':').get? 1 = some port) :
    makeComplete opts jn = completeResult opts jn w0 port rl j := by
  have hget : pyGet rl opts.task_index = some entry := pyGet_of_parts rl _ j entry hj he
  simp only [makeComplete, completeResult, hw0, hrl, hget, hport,
    pySet_eq rl opts.task_index j _ hj]

theorem makeComplete_config_inv (opts : Opts) (jn : String) (cfg : TfConfig)
    (h : (makeComplete opts jn).ret = TfResult.config cfg) :
    ∃ w0 rl j entry port,
      pyGet opts.worker_hosts 0 = some w0 ∧
      clusterLookup jn [w0] opts.worker_hosts opts.ps_hosts = some rl ∧
      pyIndex rl.length opts.task_index = some j ∧
      rl.get? j = some entry ∧
      (pySplit entry ':').get? 1 = some port ∧
      makeComplete opts jn = completeResult opts jn w0 port rl j := by
  unfold makeComplete at h
  cases hw0 : pyGet opts.worker_hosts 0 with
  | none => simp only [hw0] at h; exact TfResult.noConfusion h
  | some w0 =>
    simp only [hw0] at h
    cases hrl : clusterLookup jn [w0] opts.worker_hosts opts.ps_hosts with
    | none => simp only [hrl] at h; exact TfResult.noConfusion h
    | some rl =>
      simp only [hrl] at h
      cases hget : pyGet rl opts.task_index with
      | none => simp only [hget] at h; exact TfResult.noConfusion h
      | some entry =>
        simp only [hget] at h
        cases hport : (pySplit entry ':').get? 1 with
        | none => simp only [hport] at h; exact TfResult.noConfusion h
        | some port =>
          obtain ⟨j, hj, he⟩ := pyGet_eq_some rl opts.task_index entry hget
          exact ⟨w0, rl, j, entry, port, rfl, hrl, hj, he, hport,
            makeComplete_eq opts jn w0 entry port rl j hw0 hrl hj he hport⟩

theorem make_tf_config_config_inv (opts : Opts) (cfg : TfConfig)
    (h : (make_tf_config opts).ret = TfResult.config cfg) :
    ∃ jn, opts.job_name = some jn ∧ opts.ps_hosts ≠ [] ∧ opts.worker_hosts ≠ [] ∧
      (makeComplete opts jn).ret = TfResult.config cfg := by
  by_cases hc : triple_complete opts
  · obtain ⟨h1, h2, h3⟩ := hc
    cases hjn : opts.job_name with
    | none => exact absurd hjn h1
    | some jn =>
      rw [make_tf_config_complete opts jn hjn h2 h3] at h
      exact ⟨jn, rfl, h2, h3, h⟩
  · rw [(make_tf_config_not_complete opts hc).1] at h
    exact absurd h (by simp)

/-- C6: when `job_name` is `None` and both host lists are empty,
`make_tf_config` returns exactly the empty descriptor and logs no
warning. -/
theorem claim_c6_empty_triple (opts : Opts) (h : triple_empty opts) :
    (make_tf_config opts).ret = TfResult.empty ∧
    (make_tf_config opts).warnings = [] := by
  obtain ⟨h1, h2, h3⟩ := h
  rw [make_tf_config, if_pos ⟨h1, h2, h3⟩]
  exact ⟨rfl, rfl⟩

theorem claim_c6_empty_triple_witness :
    (make_tf_config ⟨none, 0, [], []⟩).ret = TfResult.empty ∧
    (make_tf_config ⟨none, 0, [], []⟩).warnings = [] :=
  claim_c6_empty_triple ⟨none, 0, [], []⟩ (by decide)

/-- C8: on the spec's worked example (`job_name="worker"`, `task_index=0`,
`worker_hosts=["h1:2222","h2:2222"]`, `ps_hosts=["h3:2224"]`) the
descriptor has task type `master`, `cluster.master = ["localhost:2222"]`
and `cluster.worker = ["localhost:2222","h2:2222"]`. -/
theorem claim_c8_example :
    (make_tf_config ⟨some "worker", 0, ["h3:2224"], ["h1:2222", "h2:2222"]⟩).ret
      = TfResult.config
          ⟨⟨"master", 0⟩,
           ⟨["localhost:2222"], ["localhost:2222", "h2:2222"], ["h3:2224"]⟩,
           "cloud"⟩ := by decide

/-- C9: the hidden-units string `32,64` parses to the ordered integer list
`[32, 64]`. -/
theorem claim_c9_hidden_units :
    parse_hidden_units "32,64" = some [32, 64] := by decide

/-- C10: every populated descriptor returned by `make_tf_config` carries an
`environment` field whose value is the string `cloud`. -/
theorem claim_c10_environment_cloud (opts : Opts) (cfg : TfConfig)
    (h : (make_tf_config opts).ret = TfResult.config cfg) :
    cfg.environment = "cloud" := by
  obtain ⟨jn, hjn, hps, hw, h2⟩ := make_tf_config_config_inv opts cfg h
  obtain ⟨w0, rl, j, entry, port, hw0, hrl, hj, he, hport, heq⟩ :=
    makeComplete_config_inv opts jn cfg h2
  rw [heq] at h2
  simp only [completeResult] at h2
  injection h2 with h2
  rw [← h2]

theorem claim_c10_environment_cloud_witness :
    (⟨⟨"master", 0⟩,
      ⟨["localhost:2222"], ["localhost:2222", "h2:2222"], ["h3:2224"]⟩,
      "cloud"⟩ : TfConfig).environment = "cloud" :=
  claim_c10_environment_cloud ⟨some "worker", 0, ["h3:2224"], ["h1:2222", "h2:2222"]⟩
    _ (by decide)

/-- C5: for a complete triple (job name set, both host lists non-empty)
`make_tf_config` never returns the empty descriptor. -/
theorem claim_c5_complete_not_empty (opts : Opts) (h : triple_complete opts) :
    (make_tf_config opts).ret ≠ TfResult.empty := by
  obtain ⟨h1, h2, h3⟩ := h
  intro hcontra
  cases hjn : opts.job_name with
  | none => exact absurd hjn h1
  | some jn =>
    rw [make_tf_config_complete opts jn hjn h2 h3] at hcontra
    unfold makeComplete at hcontra
    cases hw0 : pyGet opts.worker_hosts 0 with
    | none => simp only [hw0] at hcontra; exact TfResult.noConfusion hcontra
    | some w0 =>
      simp only [hw0] at hcontra
      cases hrl : clusterLookup jn [w0] opts.worker_hosts opts.ps_hosts with
      | none => simp only [hrl] at hcontra; exact TfResult.noConfusion hcontra
      | some rl =>
        simp only [hrl] at hcontra
        cases hget : pyGet rl opts.task_index with
        | none => simp only [hget] at hcontra; exact TfResult.noConfusion hcontra
        | some entry =>
          simp only [hget] at hcontra
          cases hport : (pySplit entry ':').get? 1 with
          | none => simp only [hport] at hcontra; exact TfResult.noConfusion hcontra
          | some port =>
            simp only [hport] at hcontra
            exact TfResult.noConfusion hcontra

theorem claim_c5_complete_not_empty_witness :
    (make_tf_config ⟨some "worker", 0, ["h3:2224"], ["h1:2222", "h2:2222"]⟩).ret
      ≠ TfResult.empty :=
  claim_c5_complete_not_empty ⟨some "worker", 0, ["h3:2224"], ["h1:2222", "h2:2222"]⟩
    (by decide)

/-- C4: for a triple that is neither empty nor complete, `make_tf_config`
returns the empty descriptor, logs at least one warning, and logs a
dedicated warning for each missing field. -/
theorem claim_c4_incomplete_warns (opts : Opts)
    (h1 : ¬ triple_empty opts) (h2 : ¬ triple_complete opts) :
    (make_tf_config opts).ret = TfResult.empty ∧
    (make_tf_config opts).warnings ≠ [] ∧
    (opts.job_name = none →
      "Expected job_name of worker or ps. Received None."
        ∈ (make_tf_config opts).warnings) ∧
    (opts.ps_hosts = [] →
      "Expected ps_hosts, list of hostname:port pairs. Got []. Example: --ps_hosts \"localhost:2224\" or --ps_hosts \"localhost:2224,localhost:2225"
        ∈ (make_tf_config opts).warnings) ∧
    (opts.worker_hosts = [] →
      "Expected worker_hosts, list of hostname:port pairs. Got []. Example: --worker_hosts \"localhost:2222,localhost:2223\""
        ∈ (make_tf_config opts).warnings) := by
  have hcond : opts.job_name = none ∨ opts.ps_hosts = [] ∨ opts.worker_hosts = [] := by
    unfold triple_complete at h2
    tauto
  have hmake : make_tf_config opts = ⟨TfResult.empty, incompleteWarnings opts, opts⟩ := by
    unfold make_tf_config
    rw [if_neg ?hne, if_pos hcond]
    case hne => unfold triple_empty at h1; exact h1
  rw [hmake]
  refine ⟨rfl, by simp [incompleteWarnings], ?_, ?_, ?_⟩
  · intro hj
    simp [incompleteWarnings, hj]
  · intro hp
    simp [incompleteWarnings, hp]
  · intro hw
    simp [incompleteWarnings, hw]

theorem claim_c4_incomplete_warns_witness :
    (make_tf_config ⟨some "ps", 0, [], ["h1:2222"]⟩).ret = TfResult.empty ∧
    (make_tf_config ⟨some "ps", 0, [], ["h1:2222"]⟩).warnings ≠ [] ∧
    ((⟨some "ps", 0, [], ["h1:2222"]⟩ : Opts).job_name = none →
      "Expected job_name of worker or ps. Received None."
        ∈ (make_tf_config ⟨some "ps", 0, [], ["h1:2222"]⟩).warnings) ∧
    ((⟨some "ps", 0, [], ["h1:2222"]⟩ : Opts).ps_hosts = [] →
      "Expected ps_hosts, list of hostname:port pairs. Got []. Example: --ps_hosts \"localhost:2224\" or --ps_hosts \"localhost:2224,localhost:2225"
        ∈ (make_tf_config ⟨some "ps", 0, [], ["h1:2222"]⟩).warnings) ∧
    ((⟨some "ps", 0, [], ["h1:2222"]⟩ : Opts).worker_hosts = [] →
      "Expected worker_hosts, list of hostname:port pairs. Got []. Example: --worker_hosts \"localhost:2222,localhost:2223\""
        ∈ (make_tf_config ⟨some "ps", 0, [], ["h1:2222"]⟩).warnings) :=
  claim_c4_incomplete_warns ⟨some "ps", 0, [], ["h1:2222"]⟩ (by decide) (by decide)

theorem pyIndex_zero_inv (n j : Nat) (h : pyIndex n 0 = some j) : j = 0 := by
  have hlt := pyIndex_some_lt n 0 j h
  have hn : 0 < n := by omega
  rw [pyIndex_zero n hn] at h
  injection h with h'
  omega

/-- C1: for a complete triple with a valid role name, the returned
descriptor's task type is `master` exactly when the node is worker 0; in
that case `cluster.master[0]` is `localhost:` plus the port of the original
`worker_hosts[0]`, and in every other case the task type is the job name
unchanged. -/
theorem claim_c1_master_promotion (opts : Opts) (cfg : TfConfig)
    (hrole : opts.job_name = some "worker" ∨ opts.job_name = some "ps")
    (h : (make_tf_config opts).ret = TfResult.config cfg) :
    (cfg.task.type = "master" ↔
      opts.job_name = some "worker" ∧ opts.task_index = 0) ∧
    (opts.job_name = some "worker" ∧ opts.task_index = 0 →
      ∃ w0 p, opts.worker_hosts.get? 0 = some w0 ∧
        (pySplit w0 ':').get? 1 = some p ∧
        cfg.cluster.master.get? 0 = some ("localhost:" ++ p)) ∧
    (¬ (opts.job_name = some "worker" ∧ opts.task_index = 0) →
      opts.job_name = some cfg.task.type) := by
  obtain ⟨jn, hjn, hps, hw, h2⟩ := make_tf_config_config_inv opts cfg h
  obtain ⟨w0, rl, j, entry, port, hw0, hrl, hj, he, hport, heq⟩ :=
    makeComplete_config_inv opts jn cfg h2
  rw [heq] at h2
  simp only [completeResult] at h2
  injection h2 with h2
  subst h2
  have hrole2 : jn = "worker" ∨ jn = "ps" := by
    rcases hrole with h' | h'
    · rw [h'] at hjn
      exact Or.inl (Option.some.inj hjn).symm
    · rw [h'] at hjn
      exact Or.inr (Option.some.inj hjn).symm
  rcases hrole2 with rfl | rfl
  · -- jn = "worker"
    rw [clusterLookup_worker] at hrl
    obtain rfl := Option.some.inj hrl
    refine ⟨?_, ?_, ?_⟩
    · by_cases hidx : opts.task_index = 0
      · dsimp only
        rw [if_pos ⟨rfl, hidx⟩]
        simp [hjn, hidx]
      · dsimp only
        rw [if_neg (fun hc => hidx hc.2)]
        constructor
        · intro habs
          exact absurd habs (by decide)
        · intro hc
          exact absurd hc.2 hidx
    · rintro ⟨-, hidx⟩
      obtain ⟨j0, hj0, he0⟩ := pyGet_eq_some _ _ _ hw0
      obtain rfl := pyIndex_zero_inv _ _ hj0
      rw [hidx] at hj
      obtain rfl := pyIndex_zero_inv _ _ hj
      have hew : entry = w0 := Option.some.inj (he.symm.trans he0)
      subst hew
      refine ⟨entry, port, he0, hport, ?_⟩
      dsimp only
      rw [if_pos ⟨rfl, hidx⟩, if_neg (by decide)]
      rfl
    · intro hnot
      have hidx : opts.task_index ≠ 0 := fun h0 => hnot ⟨hjn, h0⟩
      dsimp only
      rw [if_neg (fun hc => hidx hc.2)]
      exact hjn
  · -- jn = "ps"
    have hcond : ¬ (("ps" : String) = "worker" ∧ opts.task_index = 0) :=
      fun hc => absurd hc.1 (by decide)
    refine ⟨?_, ?_, ?_⟩
    · dsimp only
      rw [if_neg hcond]
      constructor
      · intro habs
        exact absurd habs (by decide)
      · intro hc
        exact absurd (Option.some.inj (hjn.symm.trans hc.1)) (by decide)
    · intro hc
      exact absurd (Option.some.inj (hjn.symm.trans hc.1)) (by decide)
    · intro hnot
      dsimp only
      rw [if_neg hcond]
      exact hjn

theorem claim_c1_master_promotion_witness :
    (⟨⟨"master", 0⟩,
      ⟨["localhost:2222"], ["localhost:2222", "h2:2222"], ["h3:2224"]⟩,
      "cloud"⟩ : TfConfig).task.type = "master" :=
  (claim_c1_master_promotion
    ⟨some "worker", 0, ["h3:2224"], ["h1:2222", "h2:2222"]⟩
    ⟨⟨"master", 0⟩,
     ⟨["localhost:2222"], ["localhost:2222", "h2:2222"], ["h3:2224"]⟩,
     "cloud"⟩
    (Or.inl rfl) (by decide)).1.mpr ⟨rfl, rfl⟩

/-- C7: in a returned descriptor the job-name role list has exactly its
`task_index` entry rewritten to `localhost:` plus the original entry's
port, and the other non-master role list is returned unchanged. -/
theorem claim_c7_self_rewrite (opts : Opts) (cfg : TfConfig)
    (h : (make_tf_config opts).ret = TfResult.config cfg) :
    (opts.job_name = some "worker" →
      localhostRewriteAt opts.worker_hosts cfg.cluster.worker opts.task_index ∧
      cfg.cluster.ps = opts.ps_hosts) ∧
    (opts.job_name = some "ps" →
      localhostRewriteAt opts.ps_hosts cfg.cluster.ps opts.task_index ∧
      cfg.cluster.worker = opts.worker_hosts) := by
  obtain ⟨jn, hjn, hps, hw, h2⟩ := make_tf_config_config_inv opts cfg h
  obtain ⟨w0, rl, j, entry, port, hw0, hrl, hj, he, hport, heq⟩ :=
    makeComplete_config_inv opts jn cfg h2
  rw [heq] at h2
  simp only [completeResult] at h2
  injection h2 with h2
  subst h2
  constructor
  · intro hjw
    obtain rfl : jn = "worker" := Option.some.inj (hjn.symm.trans hjw)
    rw [clusterLookup_worker] at hrl
    obtain rfl := Option.some.inj hrl
    constructor
    · refine ⟨j, hj, entry, he, port, hport, ?_⟩
      dsimp only
      rw [if_pos rfl]
    · dsimp only
      rw [if_neg (by decide)]
  · intro hjp
    obtain rfl : jn = "ps" := Option.some.inj (hjn.symm.trans hjp)
    rw [clusterLookup_ps] at hrl
    obtain rfl := Option.some.inj hrl
    constructor
    · refine ⟨j, hj, entry, he, port, hport, ?_⟩
      dsimp only
      rw [if_pos rfl]
    · dsimp only
      rw [if_neg (by decide)]

theorem claim_c7_self_rewrite_witness :
    localhostRewriteAt ["h1:2222", "h2:2223"] ["h1:2222", "localhost:2223"] 1 :=
  ((claim_c7_self_rewrite
    ⟨some "worker", 1, ["h3:2224"], ["h1:2222", "h2:2223"]⟩
    ⟨⟨"worker", 1⟩,
     ⟨["h1:2222"], ["h1:2222", "localhost:2223"], ["h3:2224"]⟩,
     "cloud"⟩
    (by decide)).1 rfl).1

theorem makeComplete_ne_empty (opts : Opts) (jn : String) :
    (makeComplete opts jn).ret ≠ TfResult.empty := by
  intro hcontra
  unfold makeComplete at hcontra
  cases hw0 : pyGet opts.worker_hosts 0 with
  | none => simp only [hw0] at hcontra; exact TfResult.noConfusion hcontra
  | some w0 =>
    simp only [hw0] at hcontra
    cases hrl : clusterLookup jn [w0] opts.worker_hosts opts.ps_hosts with
    | none => simp only [hrl] at hcontra; exact TfResult.noConfusion hcontra
    | some rl =>
      simp only [hrl] at hcontra
      cases hget : pyGet rl opts.task_index with
      | none => simp only [hget] at hcontra; exact TfResult.noConfusion hcontra
      | some entry =>
        simp only [hget] at hcontra
        cases hport : (pySplit entry ':').get? 1 with
        | none => simp only [hport] at hcontra; exact TfResult.noConfusion hcontra
        | some port =>
          simp only [hport] at hcontra
          exact TfResult.noConfusion hcontra

theorem makeComplete_error_opts (opts : Opts) (jn m : String)
    (h : (makeComplete opts jn).ret = TfResult.error m) :
    (makeComplete opts jn).opts = opts := by
  unfold makeComplete at h ⊢
  cases hw0 : pyGet opts.worker_hosts 0 with
  | none => simp only [hw0]
  | some w0 =>
    simp only [hw0] at h ⊢
    cases hrl : clusterLookup jn [w0] opts.worker_hosts opts.ps_hosts with
    | none => simp only [hrl]
    | some rl =>
      simp only [hrl] at h ⊢
      cases hget : pyGet rl opts.task_index with
      | none => simp only [hget]
      | some entry =>
        simp only [hget] at h ⊢
        cases hport : (pySplit entry ':').get? 1 with
        | none => simp only [hport]
        | some port =>
          simp only [hport] at h
          exact TfResult.noConfusion h

theorem makeComplete_opts_cases (opts : Opts) (jn : String) :
    (makeComplete opts jn).opts = opts ∨
    ∃ j v cfg, (makeComplete opts jn).ret = TfResult.config cfg ∧
      ((pyIndex opts.worker_hosts.length opts.task_index = some j ∧
        (makeComplete opts jn).opts =
          { opts with worker_hosts := opts.worker_hosts.set j v }) ∨
       (pyIndex opts.ps_hosts.length opts.task_index = some j ∧
        (makeComplete opts jn).opts =
          { opts with ps_hosts := opts.ps_hosts.set j v })) := by
  cases hret : (makeComplete opts jn).ret with
  | empty => exact absurd hret (makeComplete_ne_empty opts jn)
  | error m => exact Or.inl (makeComplete_error_opts opts jn m hret)
  | config cfg =>
    obtain ⟨w0, rl, j, entry, port, hw0, hrl, hj, he, hport, heq⟩ :=
      makeComplete_config_inv opts jn cfg hret
    by_cases hjm : jn = "master"
    · left
      rw [heq]
      simp only [completeResult]
      subst hjm
      rw [if_neg (by decide), if_neg (by decide)]
    · by_cases hjw : jn = "worker"
      · right
        subst hjw
        rw [clusterLookup_worker] at hrl
        obtain rfl := Option.some.inj hrl
        refine ⟨j, "localhost:" ++ port, cfg, rfl, Or.inl ⟨hj, ?_⟩⟩
        rw [heq]
        simp only [completeResult]
        rw [if_pos trivial, if_neg (show ¬ ("worker" : String) = "ps" by decide)]
      · by_cases hjp : jn = "ps"
        · right
          subst hjp
          rw [clusterLookup_ps] at hrl
          obtain rfl := Option.some.inj hrl
          refine ⟨j, "localhost:" ++ port, cfg, rfl, Or.inr ⟨hj, ?_⟩⟩
          rw [heq]
          simp only [completeResult]
          rw [if_pos trivial, if_neg (show ¬ ("ps" : String) = "worker" by decide)]
        · exfalso
          unfold clusterLookup at hrl
          rw [if_neg hjm, if_neg hjw, if_neg hjp] at hrl
          exact Option.noConfusion hrl

/-- C2 counterexample: on `job_name="worker"`, `task_index=5`,
`ps_hosts=["h3:2224"]`, `worker_hosts=["h1:2222"]` the builder raises
`IndexError` (the task index is outside the worker list), so it is not
total over its input space. -/
theorem claim_c2_counterexample :
    ¬ noError (make_tf_config ⟨some "worker", 5, ["h3:2224"], ["h1:2222"]⟩) := by
  intro hne
  exact hne "IndexError" (by decide)

/-- C2 amended: `make_tf_config` raises no exception on any empty or
incomplete triple, and on a complete triple it returns a populated
descriptor provided the job name resolves to a cluster role list,
`task_index` is a valid Python index into that list, and the indexed
entry has a colon-separated port. -/
theorem claim_c2_amended_totality (opts : Opts) :
    (¬ triple_complete opts → noError (make_tf_config opts)) ∧
    (∀ jn rl entry port,
      opts.job_name = some jn →
      opts.ps_hosts ≠ [] →
      opts.worker_hosts ≠ [] →
      clusterLookup jn (opts.worker_hosts.take 1) opts.worker_hosts
        opts.ps_hosts = some rl →
      pyGet rl opts.task_index = some entry →
      (pySplit entry ':').get? 1 = some port →
      ∃ cfg, (make_tf_config opts).ret = TfResult.config cfg) := by
  constructor
  · intro hnc m
    rw [(make_tf_config_not_complete opts hnc).1]
    exact fun h => TfResult.noConfusion h
  · intro jn rl entry port hjn hps hw hlookup hget hport
    obtain ⟨w0, hw0, htake, hget0⟩ := pyGet_zero_of_ne_nil _ hw
    rw [htake] at hlookup
    obtain ⟨j, hj, he⟩ := pyGet_eq_some rl _ entry hget
    rw [make_tf_config_complete opts jn hjn hps hw,
      makeComplete_eq opts jn w0 entry port rl j hw0 hlookup hj he hport]
    exact ⟨_, rfl⟩

theorem claim_c2_amended_totality_witness :
    ∃ cfg,
      (make_tf_config ⟨some "worker", 0, ["h3:2224"], ["h1:2222", "h2:2222"]⟩).ret
        = TfResult.config cfg :=
  (claim_c2_amended_totality
    ⟨some "worker", 0, ["h3:2224"], ["h1:2222", "h2:2222"]⟩).2
    "worker" ["h1:2222", "h2:2222"] "h1:2222" "2222"
    rfl (by decide) (by decide) (by decide) (by decide) (by decide)

/-- C3 counterexample: with `job_name="worker"`, `task_index=1`,
`worker_hosts=["h1:2222","h2:2223"]`, `ps_hosts=["h3:2224"]` the call
rewrites `opts.worker_hosts[1]` in place to `localhost:2223` (the
cluster's `worker` list aliases the input list), so the input is
mutated. -/
theorem claim_c3_counterexample :
    (make_tf_config ⟨some "worker", 1, ["h3:2224"], ["h1:2222", "h2:2223"]⟩).opts
      ≠ ⟨some "worker", 1, ["h3:2224"], ["h1:2222", "h2:2223"]⟩ := by decide

/-- C3 amended: `make_tf_config` leaves `job_name`, `task_index`, the
lengths of both host lists, and every host-list entry other than the one
at the Python-normalised `task_index` position unchanged; whenever no
populated descriptor is returned the whole argument object is unchanged.
(The `task_index` entry of the `job_name` role's own list is overwritten
with the localhost rewrite when a descriptor is returned.) -/
theorem claim_c3_amended_frame (opts : Opts) :
    (make_tf_config opts).opts.job_name = opts.job_name ∧
    (make_tf_config opts).opts.task_index = opts.task_index ∧
    (make_tf_config opts).opts.worker_hosts.length = opts.worker_hosts.length ∧
    (make_tf_config opts).opts.ps_hosts.length = opts.ps_hosts.length ∧
    (∀ k : Nat, pyIndex opts.worker_hosts.length opts.task_index ≠ some k →
      (make_tf_config opts).opts.worker_hosts.get? k = opts.worker_hosts.get? k) ∧
    (∀ k : Nat, pyIndex opts.ps_hosts.length opts.task_index ≠ some k →
      (make_tf_config opts).opts.ps_hosts.get? k = opts.ps_hosts.get? k) ∧
    ((∀ cfg, (make_tf_config opts).ret ≠ TfResult.config cfg) →
      (make_tf_config opts).opts = opts) := by
  by_cases hc : triple_complete opts
  · obtain ⟨h1, h2, h3⟩ := hc
    cases hjn : opts.job_name with
    | none => exact absurd hjn h1
    | some jn =>
      rw [make_tf_config_complete opts jn hjn h2 h3]
      rcases makeComplete_opts_cases opts jn with hsame | ⟨j, v, cfg, hcfg, hmut⟩
      · rw [hsame]
        exact ⟨hjn, rfl, rfl, rfl, fun k _ => rfl, fun k _ => rfl, fun _ => rfl⟩
      · rcases hmut with ⟨hj, hopts⟩ | ⟨hj, hopts⟩
        · rw [hopts]
          refine ⟨hjn, rfl, by simp, rfl, ?_, fun k _ => rfl, ?_⟩
          · intro k hk
            have hne : j ≠ k := fun hjk => hk (hjk ▸ hj)
            exact List.get?_set_ne v opts.worker_hosts hne
          · intro hnone
            exact absurd hcfg (hnone cfg)
        · rw [hopts]
          refine ⟨hjn, rfl, rfl, by simp, fun k _ => rfl, ?_, ?_⟩
          · intro k hk
            have hne : j ≠ k := fun hjk => hk (hjk ▸ hj)
            exact List.get?_set_ne v opts.ps_hosts hne
          · intro hnone
            exact absurd hcfg (hnone cfg)
  · rw [(make_tf_config_not_complete opts hc).2]
    exact ⟨rfl, rfl, rfl, rfl, fun k _ => rfl, fun k _ => rfl, fun _ => rfl⟩

theorem claim_c3_amended_frame_witness :
    (make_tf_config ⟨some "worker", 1, ["h3:2224"], ["h1:2222", "h2:2223"]⟩).opts.ps_hosts.get? 0
      = (⟨some "worker", 1, ["h3:2224"], ["h1:2222", "h2:2223"]⟩ : Opts).ps_hosts.get? 0 :=
  (claim_c3_amended_frame
    ⟨some "worker", 1, ["h3:2224"], ["h1:2222", "h2:2223"]⟩).2.2.2.2.2.1 0 (by decide)
